import Mathlib

set_option autoImplicit false

namespace YTA

/-!
Shallow embedding of `youtube_transcript_api/_transcripts.py` (together with the
error taxonomy of `_errors.py` and the proxy configuration of `proxies.py`),
used to check the natural-language specification of the transcript retrieval
pipeline against the code.

Python strings are embedded as Lean `String`/`List Char`, decoded JSON values as
the inductive `Json` below, Python `dict`s as insertion-ordered association
lists with last-write-wins lookup, and fallible code as `Except`.
-/

/-- A decoded JSON value, as produced by Python's `json.loads`.  Numbers are
embedded as integers, which covers every value handled by the claims under
study (no numeric JSON field is ever inspected by the embedded code paths). -/
inductive Json where
  | null : Json
  | bool (b : Bool) : Json
  | num (n : Int) : Json
  | str (s : String) : Json
  | arr (elems : List Json) : Json
  | obj (fields : List (String × Json)) : Json

/-- Python `d[k]` / `d.get(k)` on a decoded JSON object: the value bound to key
`k`.  Decoded Python dicts have unique keys, so first-match lookup is the dict
lookup.  On a non-object this returns `none` (the embedded code paths only ever
reach it on objects; theorems restrict inputs to such shapes). -/
def Json.get? : Json → String → Option Json
  | .obj fields, key => go fields key
  | _, _ => none
where
  go : List (String × Json) → String → Option Json
    | [], _ => none
    | (k, v) :: rest, key => if k = key then some v else go rest key

/-- Python `d.get(k, default)`. -/
def Json.getD (j : Json) (key : String) (default : Json) : Json :=
  (j.get? key).getD default

/-- Python dict lookup on an insertion-ordered association list: the *last*
binding for a key wins, mirroring successive `d[k] = v` assignments and dict
comprehensions over sequences with possibly repeated keys. -/
def pyDictGet? {α : Type} : List (String × α) → String → Option α
  | [], _ => none
  | (k, v) :: rest, key =>
    match pyDictGet? rest key with
    | some r => some r
    | none => if k = key then some v else none

/-- Membership test `key in d` for the same dict representation. -/
def pyDictContains {α : Type} (d : List (String × α)) (key : String) : Bool :=
  (pyDictGet? d key).isSome

/-- Which concrete `ProxyConfig` subclass is active (`proxies.py`): the rendered
guidance text of a blocked-request error depends on this. -/
inductive ProxyKind where
  | generic
  | webshare
  deriving Repr, DecidableEq

/-- Proxy configuration (`proxies.py`): the only fields the fetch pipeline
reads are the retry budget `retries_when_blocked` (an `int`, default `0` on the
base class, default `10` on `WebshareProxyConfig`) and the concrete kind. -/
structure ProxyConfig where
  kind : ProxyKind
  retriesWhenBlocked : Int
  deriving Repr, DecidableEq

/-- `_TranslationLanguage` (`_transcripts.py`). -/
structure TranslationLanguage where
  language : String
  languageCode : String
  deriving Repr, DecidableEq

/-- `Transcript` (`_transcripts.py`): one fetchable caption track.  The
`http_client` session object is not part of the data model (it performs I/O and
carries no state read by the embedded logic). -/
structure Transcript where
  videoId : String
  url : String
  language : String
  languageCode : String
  isGenerated : Bool
  translationLanguages : List TranslationLanguage
  deriving Repr, DecidableEq

/-- `Transcript._translation_languages_dict`: a dict comprehension mapping each
translation language's code to its display name (later entries overwrite). -/
def Transcript.translationLanguagesDict (t : Transcript) : List (String × String) :=
  t.translationLanguages.map fun tl => (tl.languageCode, tl.language)

/-- `Transcript.is_translatable`. -/
def Transcript.isTranslatable (t : Transcript) : Bool :=
  t.translationLanguages.length > 0

/-- `TranscriptList` (`_transcripts.py`): the two language-code-keyed dicts of
tracks plus the shared translation-language list. -/
structure TranscriptList where
  videoId : String
  manuallyCreatedTranscripts : List (String × Transcript)
  generatedTranscripts : List (String × Transcript)
  translationLanguages : List TranslationLanguage
  deriving Repr, DecidableEq

/-- The typed error taxonomy of `_errors.py`, restricted to the classes raised
by `_transcripts.py`, plus `stopIteration`: Python's `StopIteration` is not one
of the library's typed errors, but it escapes `_JsVarParser._create_var_char_iterator`
when the character iterator is exhausted before a `{` is found, so a total
embedding must surface it as an explicit outcome. -/
inductive YtError where
  | youTubeRequestFailed (videoId : String) (reason : String)
  | youTubeDataUnparsable (videoId : String)
  | stopIteration
  | pyAttributeError
  | pyKeyError (key : String)
  | pyValueError
  | requestBlocked (videoId : String) (proxyConfig : Option ProxyConfig)
  | ipBlocked (videoId : String) (proxyConfig : Option ProxyConfig)
  | ageRestricted (videoId : String)
  | invalidVideoId (videoId : String)
  | videoUnavailable (videoId : String)
  | videoUnplayable (videoId : String) (reason : Option Json) (subReasons : List Json)
  | transcriptsDisabled (videoId : String)
  | notTranslatable (videoId : String)
  | translationLanguageNotAvailable (videoId : String)
  | noTranscriptFound (videoId : String) (requestedLanguageCodes : List String)
      (transcriptData : TranscriptList)
  | failedToCreateConsentCookie (videoId : String)
  | xmlParseError (message : String)

/-! ## `_JsVarParser` — the embedded-config extractor -/

/-- The character-by-character loop body of `_JsVarParser._find_var_substring`:
state is the `escaped` flag, the `in_quotes` toggle, the brace `depth`, and the
accumulated characters; the loop returns the accumulated string as soon as
`depth` reaches `0`, and raising `YouTubeDataUnparsable` if the character
stream is exhausted first. -/
def findVarSubstringGo (videoId : String) :
    Bool → Bool → Nat → List Char → List Char → Except YtError String
  | _, _, _, _, [] => .error (.youTubeDataUnparsable videoId)
  | escaped, inQuotes, depth, chars, c :: rest =>
    let chars := chars ++ [c]
    let st : Bool × Bool × Nat :=
      if escaped then (false, inQuotes, depth)
      else if c = '\\' then (true, inQuotes, depth)
      else if c = '"' then (escaped, !inQuotes, depth)
      else if !inQuotes then
        if c = '{' then (escaped, inQuotes, depth + 1)
        else if c = '}' then (escaped, inQuotes, depth - 1)
        else (escaped, inQuotes, depth)
      else (escaped, inQuotes, depth)
    if st.2.2 = 0 then .ok (String.mk chars)
    else findVarSubstringGo videoId st.1 st.2.1 st.2.2 chars rest

/-- `_JsVarParser._find_var_substring`: scan the characters following the
opening brace with `escaped = False`, `in_quotes = False`, `depth = 1` and
`chars = ["{"]`. -/
def findVarSubstring (videoId : String) (afterBrace : List Char) : Except YtError String :=
  findVarSubstringGo videoId false false 1 ['{'] afterBrace

/-- The scanning loop of Python `str.split(sep)` for a non-empty separator:
emit the accumulated piece at each non-overlapping occurrence of the
separator, scanning left to right.  The fuel bounds the loop steps by the
input length; with a non-empty separator every step consumes at least one
character, so the fuel-exhausted branch is unreachable from `pySplit`. -/
def pySplitGo (sep : List Char) : Nat → List Char → List Char → List (List Char)
  | _, acc, [] => [acc.reverse]
  | 0, acc, l => [acc.reverse ++ l]
  | fuel + 1, acc, c :: rest =>
    if sep.isPrefixOf (c :: rest) then
      acc.reverse :: pySplitGo sep fuel [] ((c :: rest).drop sep.length)
    else pySplitGo sep fuel (c :: acc) rest

/-- Python `str.split(sep)` over character lists (the `_JsVarParser` marker is
always non-empty; Python rejects an empty separator, embedded as the trivial
split). -/
def pySplit (sep : List Char) (l : List Char) : List (List Char) :=
  match sep with
  | [] => [l]
  | _ :: _ => pySplitGo sep l.length [] l

/-- The `while next(char_iterator) != "{"` loop of
`_JsVarParser._create_var_char_iterator`: drop characters until a `{` is
consumed and return the remainder.  When the iterator is exhausted first,
Python's `next` raises a bare `StopIteration`, embedded as the explicit
`stopIteration` outcome. -/
def dropUntilAfterBrace : List Char → Except YtError (List Char)
  | [] => .error .stopIteration
  | c :: rest => if c = '{' then .ok rest else dropUntilAfterBrace rest

/-- `_JsVarParser._create_var_char_iterator`: split the page on the literal
`"var " + var_name`; fewer than two pieces is `YouTubeDataUnparsable`;
otherwise the iterator ranges over the second piece (`splitted_html[1]`, the
segment between the first and second marker occurrences), positioned just
after the first `{` consumed by the `while` loop. -/
def createVarCharIterator (varName : String) (rawHtml : String) (videoId : String) :
    Except YtError (List Char) :=
  let splittedHtml := pySplit ("var " ++ varName).toList rawHtml.toList
  if splittedHtml.length ≤ 1 then .error (.youTubeDataUnparsable videoId)
  else dropUntilAfterBrace splittedHtml[1]!

/-- `_JsVarParser.parse`, up to (but not including) the final `json.loads`: the
exact raw JSON substring isolated from the page markup.  (`json.loads` is
applied by the caller-side embedding where needed; the claims under study are
about the isolated substring.) -/
def jsVarParse (varName : String) (rawHtml : String) (videoId : String) :
    Except YtError String := do
  let charIterator ← createVarCharIterator varName rawHtml videoId
  findVarSubstring videoId charIterator

/-! ## `TranscriptListFetcher._assert_playability` — the playability classifier -/

/-- Python `str.startswith(prefix)`. -/
def pyStartsWith (s : String) (pre : String) : Bool :=
  pre.toList.isPrefixOf s.toList

/-- Python `x == s` for a decoded value `x` and string literal `s`: true exactly
when `x` is that string. -/
def Json.isStr : Json → String → Bool
  | .str t, s => t = s
  | _, _ => false

/-- `x == s` where `x` is `d.get(key)` (possibly `None`). -/
def optIsStr : Option Json → String → Bool
  | some j, s => j.isStr s
  | none, _ => false

/-- `_PlayabilityFailedReason.BOT_DETECTED` (the apostrophe is U+2019 in the
source). -/
def botDetectedReason : String := "Sign in to confirm you’re not a bot"

/-- `_PlayabilityFailedReason.AGE_RESTRICTED`. -/
def ageRestrictedReason : String := "Sign in to confirm your age"

/-- `_PlayabilityFailedReason.VIDEO_UNAVAILABLE`. -/
def videoUnavailableReason : String := "Video unavailable"

/-- The sub-reason extraction of `_assert_playability`:
`playability_status_data.get("errorScreen", {}).get("playerErrorMessageRenderer", {})
.get("subreason", {}).get("runs", [])`.  A non-list `runs` value is embedded as
the empty list (in Python iterating a non-list would fault; the theorems
restrict inputs to list-shaped `runs`). -/
def playabilityRuns (playabilityStatusData : Json) : List Json :=
  match (((playabilityStatusData.getD "errorScreen" (.obj []))
      |>.getD "playerErrorMessageRenderer" (.obj []))
      |>.getD "subreason" (.obj []))
      |>.getD "runs" (.arr []) with
  | .arr runs => runs
  | _ => []

/-- Checks that the `errorScreen` chain consists of dicts where present and that
`runs`, where present, is a list of dicts — the shapes on which every `.get`
call of the Python sub-reason extraction is defined (any other shape raises an
untyped `AttributeError`/`TypeError` in Python). -/
def errorScreenWellShaped (playabilityStatusData : Json) : Bool :=
  let v0 := playabilityStatusData.getD "errorScreen" (.obj [])
  match v0 with
  | .obj _ =>
    let v1 := v0.getD "playerErrorMessageRenderer" (.obj [])
    match v1 with
    | .obj _ =>
      let v2 := v1.getD "subreason" (.obj [])
      match v2 with
      | .obj _ =>
        match v2.getD "runs" (.arr []) with
        | .arr runs => runs.all fun run => match run with | .obj _ => true | _ => false
        | _ => false
      | _ => false
    | _ => false
  | _ => false

/-- `TranscriptListFetcher._assert_playability`: the decision table mapping the
decoded `playabilityStatus` object to a typed outcome.  The source's nested
`if`/`raise` ladder is flattened into an `else if` chain, which is equivalent
because every branch raises. -/
def assertPlayability (playabilityStatusData : Json) (videoId : String) :
    Except YtError Unit :=
  let playabilityStatus := playabilityStatusData.get? "status"
  if !(optIsStr playabilityStatus "OK") && playabilityStatus.isSome then
    let reason := playabilityStatusData.get? "reason"
    if optIsStr playabilityStatus "LOGIN_REQUIRED" && optIsStr reason botDetectedReason then
      .error (.requestBlocked videoId none)
    else if optIsStr playabilityStatus "LOGIN_REQUIRED" && optIsStr reason ageRestrictedReason then
      .error (.ageRestricted videoId)
    else if optIsStr playabilityStatus "ERROR" && optIsStr reason videoUnavailableReason then
      if pyStartsWith videoId "http://" || pyStartsWith videoId "https://" then
        .error (.invalidVideoId videoId)
      else
        .error (.videoUnavailable videoId)
    else
      .error (.videoUnplayable videoId reason
        ((playabilityRuns playabilityStatusData).map fun run => run.getD "text" (.str "")))
  else
    .ok ()

/-! ## `TranscriptListFetcher._extract_captions_json` (post-decode tail) and the
retry-on-block loop -/

/-- The tail of `TranscriptListFetcher._extract_captions_json` operating on the
already decoded player response: assert playability, then locate
`captions.playerCaptionsTracklistRenderer` and raise `TranscriptsDisabled` when
it is `None` or has no `captionTracks` key.  A missing `playabilityStatus` key
makes Python call `.get` on `None`, an untyped `AttributeError` surfaced here as
the explicit `pyAttributeError` outcome. -/
def extractCaptionsFromVideoData (videoData : Json) (videoId : String) :
    Except YtError Json := do
  (match videoData.get? "playabilityStatus" with
    | none => .error .pyAttributeError
    | some playabilityStatusData => assertPlayability playabilityStatusData videoId :
      Except YtError Unit)
  match (videoData.getD "captions" (.obj [])).get? "playerCaptionsTracklistRenderer" with
  | none => .error (.transcriptsDisabled videoId)
  | some captionsJson =>
    if (captionsJson.get? "captionTracks").isSome then .ok captionsJson
    else .error (.transcriptsDisabled videoId)

/-- `RequestBlocked` and its subclass `IpBlocked` — the exceptions caught by the
`except RequestBlocked` clause of `_fetch_captions_json`. -/
def YtError.isRequestBlocked : YtError → Bool
  | .requestBlocked _ _ => true
  | .ipBlocked _ _ => true
  | _ => false

/-- `RequestBlocked.with_proxy_config`: annotate a blocked-request error with
the active proxy configuration (which selects the rendered guidance text). -/
def YtError.withProxyConfig (e : YtError) (proxyConfig : Option ProxyConfig) : YtError :=
  match e with
  | .requestBlocked videoId _ => .requestBlocked videoId proxyConfig
  | .ipBlocked videoId _ => .ipBlocked videoId proxyConfig
  | _ => e

/-- The retry budget read by `_fetch_captions_json`: `0` with no proxy
configured, else the configuration's `retries_when_blocked`. -/
def proxyRetries (proxyConfig : Option ProxyConfig) : Int :=
  match proxyConfig with
  | none => 0
  | some pc => pc.retriesWhenBlocked

/-- `TranscriptListFetcher._fetch_captions_json`: one attempt per call, where
`attempt n` is the outcome of the `n`-th `_fetch_video_html` +
`_extract_captions_json` round (network I/O abstracted as an oracle indexed by
`try_number`).  On `RequestBlocked` (or subtype) the whole round is retried
while `try_number + 1 < retries`; otherwise the exception is annotated with the
active proxy configuration and propagated. -/
def fetchCaptionsJson (proxyConfig : Option ProxyConfig)
    (attempt : Nat → Except YtError Json) (tryNumber : Nat) : Except YtError Json :=
  match attempt tryNumber with
  | .ok captions => .ok captions
  | .error e =>
    if e.isRequestBlocked then
      if (tryNumber : Int) + 1 < proxyRetries proxyConfig then
        fetchCaptionsJson proxyConfig attempt (tryNumber + 1)
      else .error (e.withProxyConfig proxyConfig)
    else .error e
termination_by (proxyRetries proxyConfig - tryNumber).toNat
decreasing_by
  rename_i h
  omega

/-- Instrumented clone of `fetchCaptionsJson` that additionally returns the
list of attempt indices consumed, used to count watch-page fetches.  Its first
component agrees with `fetchCaptionsJson` (`fetchCaptionsJsonTrace_fst`). -/
def fetchCaptionsJsonTrace (proxyConfig : Option ProxyConfig)
    (attempt : Nat → Except YtError Json) (tryNumber : Nat) :
    Except YtError Json × List Nat :=
  match attempt tryNumber with
  | .ok captions => (.ok captions, [tryNumber])
  | .error e =>
    if e.isRequestBlocked then
      if (tryNumber : Int) + 1 < proxyRetries proxyConfig then
        let rest := fetchCaptionsJsonTrace proxyConfig attempt (tryNumber + 1)
        (rest.1, tryNumber :: rest.2)
      else (.error (e.withProxyConfig proxyConfig), [tryNumber])
    else (.error e, [tryNumber])
termination_by (proxyRetries proxyConfig - tryNumber).toNat
decreasing_by
  rename_i h
  omega

/-! ## `TranscriptList.find_transcript` and `Transcript.translate` -/

/-- The inner loop of `TranscriptList._find_transcript`: the first dict in
`transcript_dicts` containing the language code. -/
def findTranscriptInDicts (transcriptDicts : List (List (String × Transcript)))
    (languageCode : String) : Option Transcript :=
  match transcriptDicts with
  | [] => none
  | d :: rest =>
    match pyDictGet? d languageCode with
    | some t => some t
    | none => findTranscriptInDicts rest languageCode

/-- The outer loop of `TranscriptList._find_transcript`: iterate the requested
language codes in order. -/
def findTranscriptLoop (transcriptDicts : List (List (String × Transcript))) :
    List String → Option Transcript
  | [] => none
  | code :: rest =>
    match findTranscriptInDicts transcriptDicts code with
    | some t => some t
    | none => findTranscriptLoop transcriptDicts rest

/-- `TranscriptList._find_transcript`: return the first match of the two nested
loops, else raise `NoTranscriptFound` carrying the full requested-code list and
the transcript list itself (from which the diagnostic description of all
available tracks is rendered). -/
def TranscriptList.findTranscriptFrom (tl : TranscriptList) (languageCodes : List String)
    (transcriptDicts : List (List (String × Transcript))) : Except YtError Transcript :=
  match findTranscriptLoop transcriptDicts languageCodes with
  | some t => .ok t
  | none => .error (.noTranscriptFound tl.videoId languageCodes tl)

/-- `TranscriptList.find_transcript`: manually created dict first, generated
dict second. -/
def TranscriptList.findTranscript (tl : TranscriptList) (languageCodes : List String) :
    Except YtError Transcript :=
  tl.findTranscriptFrom languageCodes
    [tl.manuallyCreatedTranscripts, tl.generatedTranscripts]

/-- `TranscriptList.find_generated_transcript`. -/
def TranscriptList.findGeneratedTranscript (tl : TranscriptList)
    (languageCodes : List String) : Except YtError Transcript :=
  tl.findTranscriptFrom languageCodes [tl.generatedTranscripts]

/-- `TranscriptList.find_manually_created_transcript`. -/
def TranscriptList.findManuallyCreatedTranscript (tl : TranscriptList)
    (languageCodes : List String) : Except YtError Transcript :=
  tl.findTranscriptFrom languageCodes [tl.manuallyCreatedTranscripts]

/-- `Transcript.translate`: a new `Transcript` whose URL is the original's with
`&tlang=<code>` appended, whose language name is the dict entry for the chosen
code, with `is_generated = True` and an empty translation-language list. -/
def Transcript.translate (t : Transcript) (languageCode : String) :
    Except YtError Transcript :=
  if !t.isTranslatable then .error (.notTranslatable t.videoId)
  else
    match pyDictGet? t.translationLanguagesDict languageCode with
    | none => .error (.translationLanguageNotAvailable t.videoId)
    | some targetLanguage =>
      .ok { videoId := t.videoId
            url := t.url ++ "&tlang=" ++ languageCode
            language := targetLanguage
            languageCode := languageCode
            isGenerated := true
            translationLanguages := [] }

/-! ## `_TranscriptParser` — the caption XML-to-snippet parser -/

/-- The pass of `unescapeChars`, fuelled by the input length (each step
consumes at least one character, so the fuel-exhausted branch is unreachable
from `unescapeChars`). -/
def unescapeCharsGo : Nat → List Char → List Char
  | _, [] => []
  | 0, l => l
  | fuel + 1, c :: rest =>
    if c = '&' then
      if rest.take 4 = ['a', 'm', 'p', ';'] then '&' :: unescapeCharsGo fuel (rest.drop 4)
      else if rest.take 3 = ['l', 't', ';'] then '<' :: unescapeCharsGo fuel (rest.drop 3)
      else if rest.take 3 = ['g', 't', ';'] then '>' :: unescapeCharsGo fuel (rest.drop 3)
      else if rest.take 5 = ['q', 'u', 'o', 't', ';'] then
        '"' :: unescapeCharsGo fuel (rest.drop 5)
      else c :: unescapeCharsGo fuel rest
    else c :: unescapeCharsGo fuel rest

/-- Modelled from the Python standard library's `html.unescape`, restricted to
the named character references exercised here (`&amp;` `&lt;` `&gt;` `&quot;`):
a single left-to-right pass replacing each reference by its character;
replacements are not re-scanned. -/
def unescapeChars (l : List Char) : List Char :=
  unescapeCharsGo l.length l

/-- The scan of `stripAllTags`, fuelled by the input length (each step consumes
at least one character, so the fuel-exhausted branch is unreachable from
`stripAllTags`). -/
def stripAllTagsGo : Nat → List Char → List Char
  | _, [] => []
  | 0, l => l
  | fuel + 1, c :: rest =>
    if c = '<' then
      if rest.contains '>' then stripAllTagsGo fuel ((rest.dropWhile (· ≠ '>')).drop 1)
      else c :: stripAllTagsGo fuel rest
    else c :: stripAllTagsGo fuel rest

/-- `re.sub(r"<[^>]*>", "", ·)`, the default-mode tag filter of
`_TranscriptParser._get_html_regex`: scan left to right; a `<` starts a match
exactly when some `>` occurs later, and the match extends through the first
such `>`; unmatched characters are emitted. -/
def stripAllTags (l : List Char) : List Char :=
  stripAllTagsGo l.length l

/-- `_TranscriptParser._FORMATTING_TAGS`. -/
def formattingTags : List (List Char) :=
  [['s', 't', 'r', 'o', 'n', 'g'], ['e', 'm'], ['b'], ['i'], ['m', 'a', 'r', 'k'],
   ['s', 'm', 'a', 'l', 'l'], ['d', 'e', 'l'], ['i', 'n', 's'], ['s', 'u', 'b'],
   ['s', 'u', 'p']]

/-- A regex word character (`\w` over the inputs in scope). -/
def isWordChar (c : Char) : Bool := c.isAlphanum || c = '_'

/-- Case-insensitive match of the literal `tag` at the head of the input
followed by the `\b` word-boundary test — the `(strong|em|...)\b` part of the
preserve-formatting pattern's lookahead (`re.IGNORECASE` is active, and the
alternatives are lowercase). -/
def matchTagWord : List Char → List Char → Bool
  | [], [] => true
  | [], c :: _ => !isWordChar c
  | _ :: _, [] => false
  | t :: ts, c :: cs => c.toLower = t && matchTagWord ts cs

/-- The alternation `(strong|em|b|i|mark|small|del|ins|sub|sup)\b`. -/
def lookaheadCore (l : List Char) : Bool :=
  formattingTags.any fun tag => matchTagWord tag l

/-- The lookahead body `\/?(strong|...)\b`: `\/?` greedily consumes a slash
when present and backtracks to the empty match. -/
def lookaheadMatches : List Char → Bool
  | [] => lookaheadCore []
  | c :: cs =>
    if c = '/' then lookaheadCore cs || lookaheadCore (c :: cs)
    else lookaheadCore (c :: cs)

/-- The lazy tail `.*?\b>` of the preserve-formatting pattern: consume the
fewest characters (none of which may be a newline, since `.` does not match
`\n`) such that the next character is a `>` forming a word boundary with the
character before it, and return the input after that `>`.  `prev` is the
character preceding the current position. -/
def lazyBody (prev : Char) : List Char → Option (List Char)
  | [] => none
  | c :: rest =>
    if c = '>' && isWordChar prev then some rest
    else if c = '\n' then none
    else lazyBody c rest

theorem lazyBody_length_lt (prev : Char) (l : List Char) (r : List Char)
    (h : lazyBody prev l = some r) : r.length < l.length := by
  induction l generalizing prev with
  | nil => simp [lazyBody] at h
  | cons c rest ih =>
    simp only [lazyBody] at h
    split at h
    · cases h; simp
    · split at h
      · cases h
      · exact Nat.lt_trans (ih _ h) (by simp)

/-- Attempt the preserve-formatting pattern
`<\/?(?!\/?(strong|em|b|i|mark|small|del|ins|sub|sup)\b).*?\b>` at a position
whose `<` has already been consumed (`l` is the input after the `<`): returns
the input after the match, or `none` when the pattern fails here.  `\/?` first
consumes a slash when one is present, and backtracks to the empty match when
the rest of the pattern fails. -/
def matchPreserveTag (l : List Char) : Option (List Char) :=
  match l with
  | '/' :: l₁ =>
    match (if lookaheadMatches l₁ then none else lazyBody '/' l₁ : Option (List Char)) with
    | some r => some r
    | none => if lookaheadMatches l then none else lazyBody '<' l
  | _ => if lookaheadMatches l then none else lazyBody '<' l

theorem matchPreserveTag_length_lt (l : List Char) (r : List Char)
    (h : matchPreserveTag l = some r) : r.length < l.length := by
  unfold matchPreserveTag at h
  split at h
  case h_1 l₁ =>
    split at h
    case h_1 r' hinner =>
      cases h
      split at hinner
      · exact absurd hinner (by simp)
      · have := lazyBody_length_lt _ _ _ hinner
        simp only [List.length_cons]
        omega
    case h_2 hinner =>
      split at h
      · cases h
      · exact lazyBody_length_lt _ _ _ h
  case h_2 =>
    split at h
    · cases h
    · exact lazyBody_length_lt _ _ _ h

/-- The scan of `stripPreserveTags`, fuelled by the input length (each step
consumes at least one character — a successful `matchPreserveTag` strictly
shrinks the input by `matchPreserveTag_length_lt` — so the fuel-exhausted
branch is unreachable from `stripPreserveTags`). -/
def stripPreserveTagsGo : Nat → List Char → List Char
  | _, [] => []
  | 0, l => l
  | fuel + 1, c :: rest =>
    if c = '<' then
      match matchPreserveTag rest with
      | some r => stripPreserveTagsGo fuel r
      | none => c :: stripPreserveTagsGo fuel rest
    else c :: stripPreserveTagsGo fuel rest

/-- `re.sub` of the preserve-formatting pattern with `""`: left-to-right scan,
skipping each matched span and emitting unmatched characters. -/
def stripPreserveTags (l : List Char) : List Char :=
  stripPreserveTagsGo l.length l

/-- `re.sub(self._html_regex, "", ·)` for the regex compiled by
`_TranscriptParser._get_html_regex(preserve_formatting)`. -/
def htmlRegexSub (preserveFormatting : Bool) (l : List Char) : List Char :=
  if preserveFormatting then stripPreserveTags l else stripAllTags l

/-- The per-element text processing of `_TranscriptParser.parse`:
`re.sub(self._html_regex, "", unescape(xml_element.text))`. -/
def snippetText (preserveFormatting : Bool) (raw : String) : String :=
  String.mk (htmlRegexSub preserveFormatting (unescapeChars raw.toList))

/-- The value of a digit string. -/
def digitsToNat (l : List Char) : Nat :=
  l.foldl (fun n c => n * 10 + (c.toNat - '0'.toNat)) 0

/-- A parsed float value, represented exactly as an unnormalised decimal:
`mantissa / 10 ^ fracDigits` (see `PyFloat.toRat`).  Every caption attribute
value is a decimal literal, which this represents without rounding. -/
structure PyFloat where
  mantissa : Int
  fracDigits : Nat
  deriving Repr, DecidableEq

/-- The rational value of a parsed float. -/
def PyFloat.toRat (x : PyFloat) : Rat :=
  (x.mantissa : Rat) / 10 ^ x.fracDigits

/-- Modelled from Python's `float` constructor restricted to plain decimal
literals (optional sign, integer digits, optional fractional part), which
covers the caption `start`/`dur` attribute values.  `none` is Python's
`ValueError`. -/
def pyFloat (s : String) : Option PyFloat :=
  let cs := s.toList
  let signed : Int × List Char :=
    match cs with
    | '-' :: rest => (-1, rest)
    | '+' :: rest => (1, rest)
    | _ => (1, cs)
  let intDigits := signed.2.takeWhile Char.isDigit
  let rest := signed.2.dropWhile Char.isDigit
  match rest with
  | [] =>
    if intDigits.isEmpty then none
    else some ⟨signed.1 * digitsToNat intDigits, 0⟩
  | '.' :: fracPart =>
    let fracDigits := fracPart.takeWhile Char.isDigit
    if !(fracPart.dropWhile Char.isDigit).isEmpty then none
    else if intDigits.isEmpty && fracDigits.isEmpty then none
    else some ⟨signed.1 *
        (digitsToNat intDigits * 10 ^ fracDigits.length + digitsToNat fracDigits),
      fracDigits.length⟩
  | _ => none

/-- An XML element as exposed by `ElementTree`: tag, attribute dict, and text
content.  `ElementTree` represents empty or absent text content as `None`
(`text = none` here); a parsed element never carries `some ""`. -/
structure XmlElement where
  tag : String
  attrib : List (String × String)
  text : Option String
  deriving Repr, DecidableEq

/-- The root element returned by `ElementTree.fromstring`, with its children
(caption payloads are flat, so children are leaf elements). -/
structure XmlRoot where
  tag : String
  attrib : List (String × String)
  children : List XmlElement
  deriving Repr, DecidableEq

/-- XML whitespace. -/
def skipWs (l : List Char) : List Char :=
  l.dropWhile fun c => c = ' ' || c = '\n' || c = '\t' || c = '\r'

/-- Characters allowed in the element/attribute names of the subset. -/
def isNameChar (c : Char) : Bool :=
  c.isAlphanum || c = '_' || c = '-' || c = ':' || c = '.'

/-- Parse a name; empty names are malformed. -/
def parseXmlName (cs : List Char) : Except String (String × List Char) :=
  let name := cs.takeWhile isNameChar
  if name.isEmpty then .error "expected a name"
  else .ok (String.mk name, cs.drop name.length)

/-- Parse a (possibly empty) attribute list `name="value" ...`; stops before
the first non-name character after whitespace.  Fuelled by the input length. -/
def parseXmlAttrs : Nat → List Char → Except String (List (String × String) × List Char)
  | 0, _ => .error "not well-formed (fuel)"
  | fuel + 1, cs =>
    match skipWs cs with
    | [] => .ok ([], [])
    | c :: rest =>
      if isNameChar c then
        match parseXmlName (c :: rest) with
        | .error e => .error e
        | .ok (name, cs₂) =>
          match cs₂ with
          | '=' :: '"' :: valRest =>
            let v := valRest.takeWhile (· ≠ '"')
            match valRest.drop v.length with
            | '"' :: cs₃ =>
              match parseXmlAttrs fuel cs₃ with
              | .error e => .error e
              | .ok (attrs, cs₄) => .ok ((name, String.mk v) :: attrs, cs₄)
            | _ => .error "unterminated attribute value"
          | _ => .error "expected attribute value"
      else .ok ([], c :: rest)

/-- Parse one leaf child element: `<name attrs/>` or `<name attrs>text</name>`. -/
def parseXmlChild (cs : List Char) : Except String (XmlElement × List Char) :=
  match skipWs cs with
  | '<' :: rest =>
    match parseXmlName rest with
    | .error e => .error e
    | .ok (tag, cs₁) =>
      match parseXmlAttrs (cs₁.length + 1) cs₁ with
      | .error e => .error e
      | .ok (attrs, cs₂) =>
        match cs₂ with
        | '/' :: '>' :: cs₃ => .ok ({ tag := tag, attrib := attrs, text := none }, cs₃)
        | '>' :: cs₃ =>
          let txt := cs₃.takeWhile (· ≠ '<')
          match cs₃.drop txt.length with
          | '<' :: '/' :: cs₄ =>
            match parseXmlName cs₄ with
            | .error e => .error e
            | .ok (closeTag, cs₅) =>
              if closeTag ≠ tag then .error "mismatched tag"
              else
                match skipWs cs₅ with
                | '>' :: cs₆ =>
                  .ok ({ tag := tag, attrib := attrs,
                         text := if txt.isEmpty then none else some (String.mk txt) }, cs₆)
                | _ => .error "not well-formed (closing tag)"
          | _ => .error "unterminated element"
        | _ => .error "not well-formed (start tag)"
  | _ => .error "expected an element"

/-- Parse the root's children until its closing tag.  Fuelled by input length. -/
def parseXmlChildren : Nat → List Char → Except String (List XmlElement × List Char)
  | 0, _ => .error "not well-formed (fuel)"
  | fuel + 1, cs =>
    match skipWs cs with
    | '<' :: '/' :: rest => .ok ([], '<' :: '/' :: rest)
    | '<' :: _ =>
      match parseXmlChild cs with
      | .error e => .error e
      | .ok (el, cs₂) =>
        match parseXmlChildren fuel cs₂ with
        | .error e => .error e
        | .ok (els, cs₃) => .ok (el :: els, cs₃)
    | [] => .error "no element found"
    | _ => .error "junk after document element"

/-- Modelled from `defusedxml.ElementTree.fromstring`, restricted to the caption
wire format subset (`<root attrs> (leaf elements)* </root>`, double-quoted
attributes, no XML prolog, comments, CDATA, mixed content or nested children;
character references inside text are kept verbatim).  Any input outside the
subset is rejected as not well-formed (`ParseError`, the `.error` case). -/
def fromstring (rawData : String) : Except String XmlRoot :=
  match skipWs rawData.toList with
  | '<' :: rest =>
    match parseXmlName rest with
    | .error e => .error e
    | .ok (tag, cs₁) =>
      match parseXmlAttrs (cs₁.length + 1) cs₁ with
      | .error e => .error e
      | .ok (attrs, cs₂) =>
        match cs₂ with
        | '/' :: '>' :: cs₃ =>
          if (skipWs cs₃).isEmpty then .ok { tag := tag, attrib := attrs, children := [] }
          else .error "junk after document element"
        | '>' :: cs₃ =>
          match parseXmlChildren (cs₃.length + 1) cs₃ with
          | .error e => .error e
          | .ok (children, cs₄) =>
            match cs₄ with
            | '<' :: '/' :: cs₅ =>
              match parseXmlName cs₅ with
              | .error e => .error e
              | .ok (closeTag, cs₆) =>
                if closeTag ≠ tag then .error "mismatched tag"
                else
                  match skipWs cs₆ with
                  | '>' :: cs₇ =>
                    if (skipWs cs₇).isEmpty then
                      .ok { tag := tag, attrib := attrs, children := children }
                    else .error "junk after document element"
                  | _ => .error "not well-formed (closing tag)"
            | _ => .error "no closing tag for document element"
        | _ => .error "not well-formed (start tag)"
  | _ => .error "no element found"

/-- `FetchedTranscriptSnippet`, floats embedded as exact decimals. -/
structure FetchedTranscriptSnippet where
  text : String
  start : PyFloat
  duration : PyFloat
  deriving Repr, DecidableEq

/-- The per-element body of the list comprehension in `_TranscriptParser.parse`:
`none` when the element is filtered out (`text is None`); a missing `start`
attribute is Python's `KeyError`, an unparsable float its `ValueError` —
untyped faults surfaced as explicit outcomes. -/
def elementSnippet (preserveFormatting : Bool) (e : XmlElement) :
    Except YtError (Option FetchedTranscriptSnippet) :=
  match e.text with
  | none => .ok none
  | some t =>
    match pyDictGet? e.attrib "start" with
    | none => .error (.pyKeyError "start")
    | some startStr =>
      match pyFloat startStr with
      | none => .error .pyValueError
      | some start =>
        match pyFloat ((pyDictGet? e.attrib "dur").getD "0.0") with
        | none => .error .pyValueError
        | some duration =>
          .ok (some { text := snippetText preserveFormatting t, start := start,
                      duration := duration })

/-- The list comprehension of `_TranscriptParser.parse` over the root's
children, in document order. -/
def parseElements (preserveFormatting : Bool) :
    List XmlElement → Except YtError (List FetchedTranscriptSnippet)
  | [] => .ok []
  | e :: rest =>
    match elementSnippet preserveFormatting e with
    | .error err => .error err
    | .ok s? =>
      match parseElements preserveFormatting rest with
      | .error err => .error err
      | .ok others =>
        .ok (match s? with
          | some s => s :: others
          | none => others)

/-- `_TranscriptParser.parse`: `ElementTree.fromstring` on the raw caption
payload, then the snippet comprehension; a malformed document surfaces the
parse error (`xmlParseError`), which `Transcript.fetch` does not catch. -/
def transcriptParserParse (preserveFormatting : Bool) (rawData : String) :
    Except YtError (List FetchedTranscriptSnippet) :=
  match fromstring rawData with
  | .error message => .error (.xmlParseError message)
  | .ok root => parseElements preserveFormatting root.children

/-! ## Specification-side companion definitions

These definitions follow the SPEC's words (not the code) and exist to be
compared against the embedding: a brace-depth state machine used to
characterise what substring the scanner returns, the claim's own
opening-brace search, and per-element snippet extraction in closed form. -/

/-- One step of the quote/escape-aware depth scan as the spec words it: an
`escaped` flag (true for exactly one character after an unescaped backslash),
an `in_quotes` toggle (flips on an unescaped `"`), and a depth counter where
only unescaped, unquoted braces count. -/
def braceStep (st : Bool × Bool × Nat) (c : Char) : Bool × Bool × Nat :=
  let (escaped, inQuotes, depth) := st
  if escaped then (false, inQuotes, depth)
  else if c = '\\' then (true, inQuotes, depth)
  else if c = '"' then (escaped, !inQuotes, depth)
  else if !inQuotes then
    if c = '{' then (escaped, inQuotes, depth + 1)
    else if c = '}' then (escaped, inQuotes, depth - 1)
    else st
  else st

/-- The quote/escape-aware nesting depth of a character list, starting outside
quotes at depth `0`. -/
def braceDepth (l : List Char) : Nat :=
  (l.foldl braceStep (false, false, 0)).2.2

/-- The opening-brace search as the CLAIM words it (spec §4.2 step 2): scan the
segment after the marker tracking quotes and escapes, and take the first
*unescaped, unquoted* `{` as the object's opening brace; returns the input
after that brace.  (The code, by contrast, takes the first `{` character
outright.)  Definition follows the spec's words, for comparison with the
embedding. -/
def claimFindOpeningBrace : Bool → Bool → List Char → Option (List Char)
  | _, _, [] => none
  | escaped, inQuotes, c :: rest =>
    if escaped then claimFindOpeningBrace false inQuotes rest
    else if c = '\\' then claimFindOpeningBrace true inQuotes rest
    else if c = '"' then claimFindOpeningBrace escaped (!inQuotes) rest
    else if c = '{' && !inQuotes then some rest
    else claimFindOpeningBrace escaped inQuotes rest

/-- The extractor as the CLAIM words it: split on the marker, locate the first
unescaped, unquoted `{`, then run the same depth scan.  Compared against
`jsVarParse`, which locates the first `{` outright. -/
def claimExtract (varName : String) (rawHtml : String) (videoId : String) :
    Except YtError String :=
  let splittedHtml := pySplit ("var " ++ varName).toList rawHtml.toList
  if splittedHtml.length ≤ 1 then .error (.youTubeDataUnparsable videoId)
  else
    match claimFindOpeningBrace false false splittedHtml[1]! with
    | none => .error (.youTubeDataUnparsable videoId)
    | some afterBrace => findVarSubstring videoId afterBrace

/-- Closed-form per-element snippet extraction, the spec side of C5: text
processed by `snippetText`, `start` the float value of the `start` attribute,
`duration` the float value of `dur` defaulting to `"0.0"`; `none` when the
element has no text content. -/
def snippetSpec (preserveFormatting : Bool) (e : XmlElement) :
    Option FetchedTranscriptSnippet :=
  e.text.bind fun t =>
    (pyDictGet? e.attrib "start").bind fun startStr =>
      (pyFloat startStr).bind fun start =>
        (pyFloat ((pyDictGet? e.attrib "dur").getD "0.0")).map fun duration =>
          { text := snippetText preserveFormatting t
            start := start
            duration := duration }

/-- `true` when the list still contains a substring matching `<[^>]*>`, i.e. a
`<` with some `>` after it. -/
def hasUnstrippedTag : List Char → Bool
  | [] => false
  | c :: rest => (c = '<' && rest.contains '>') || hasUnstrippedTag rest

/-! ## Theorems -/

/-- **C2**: the playability classifier follows the decision table: status `OK`
or absent returns normally; `LOGIN_REQUIRED` with the bot-detection reason
raises `RequestBlocked`; `LOGIN_REQUIRED` with the age-restriction reason
raises `AgeRestricted`; `ERROR` with reason `"Video unavailable"` raises
`InvalidVideoId` when the video id looks like a URL and `VideoUnavailable`
otherwise; every other non-OK status raises `VideoUnplayable` carrying the
reason and the `text` fields of the `errorScreen.playerErrorMessageRenderer
.subreason.runs` entries (the last two conjuncts pin down that this run list
is exactly the nested `runs` array, and empty when `errorScreen` is absent). -/
theorem playability_decision_table (videoId : String) (d : Json) :
    ((d.get? "status" = none ∨ d.get? "status" = some (.str "OK")) →
      assertPlayability d videoId = .ok ())
  ∧ (d.get? "status" = some (.str "LOGIN_REQUIRED") →
      d.get? "reason" = some (.str botDetectedReason) →
      assertPlayability d videoId = .error (.requestBlocked videoId none))
  ∧ (d.get? "status" = some (.str "LOGIN_REQUIRED") →
      d.get? "reason" = some (.str ageRestrictedReason) →
      assertPlayability d videoId = .error (.ageRestricted videoId))
  ∧ (d.get? "status" = some (.str "ERROR") →
      d.get? "reason" = some (.str videoUnavailableReason) →
      ((pyStartsWith videoId "http://" || pyStartsWith videoId "https://") = true →
        assertPlayability d videoId = .error (.invalidVideoId videoId))
      ∧ ((pyStartsWith videoId "http://" || pyStartsWith videoId "https://") = false →
        assertPlayability d videoId = .error (.videoUnavailable videoId)))
  ∧ (∀ j : Json, d.get? "status" = some j → j.isStr "OK" = false →
      (j.isStr "LOGIN_REQUIRED" = true →
        optIsStr (d.get? "reason") botDetectedReason = false ∧
        optIsStr (d.get? "reason") ageRestrictedReason = false) →
      (j.isStr "ERROR" = true →
        optIsStr (d.get? "reason") videoUnavailableReason = false) →
      errorScreenWellShaped d = true →
      assertPlayability d videoId = .error (.videoUnplayable videoId (d.get? "reason")
        ((playabilityRuns d).map fun run => run.getD "text" (.str ""))))
  ∧ (∀ rs : List Json, playabilityRuns (.obj [("errorScreen",
      .obj [("playerErrorMessageRenderer",
        .obj [("subreason", .obj [("runs", .arr rs)])])])]) = rs)
  ∧ (∀ ps : Json, ps.get? "errorScreen" = none → playabilityRuns ps = []) := by
  refine ⟨?_, ?_, ?_, ?_, ?_, ?_, ?_⟩
  · rintro (h | h) <;> simp [assertPlayability, h, optIsStr, Json.isStr]
  · intro h1 h2
    simp [assertPlayability, h1, h2, optIsStr, Json.isStr, botDetectedReason]
  · intro h1 h2
    simp [assertPlayability, h1, h2, optIsStr, Json.isStr, botDetectedReason,
      ageRestrictedReason]
  · intro h1 h2
    constructor <;> intro hurl <;>
      simp [assertPlayability, h1, h2, hurl, optIsStr, Json.isStr, botDetectedReason,
        ageRestrictedReason, videoUnavailableReason]
  · intro j hs hok hlr herr _
    cases hLR : j.isStr "LOGIN_REQUIRED" <;> cases hE : j.isStr "ERROR"
    · simp [assertPlayability, hs, hok, hLR, hE, optIsStr]
    · obtain hu := herr hE
      simp only [optIsStr] at hu
      simp [assertPlayability, hs, hok, hLR, hE, hu, optIsStr]
    · obtain ⟨hb, ha⟩ := hlr hLR
      simp only [optIsStr] at hb ha
      simp [assertPlayability, hs, hok, hLR, hE, hb, ha, optIsStr]
    · obtain ⟨hb, ha⟩ := hlr hLR
      obtain hu := herr hE
      simp only [optIsStr] at hb ha hu
      simp [assertPlayability, hs, hok, hLR, hE, hb, ha, hu, optIsStr]
  · intro rs
    rfl
  · intro ps h
    simp only [playabilityRuns, Json.getD, h, Option.getD_none]
    rfl

/-- Witness for **C2**: three concrete rows of the decision table, obtained by
applying `playability_decision_table` (age restriction; URL-shaped video id on
an unavailable video; unplayable with a sub-reason). -/
theorem playability_decision_table_witness :
    assertPlayability (.obj [("status", .str "LOGIN_REQUIRED"),
        ("reason", .str ageRestrictedReason)]) "vid"
      = .error (.ageRestricted "vid")
  ∧ assertPlayability (.obj [("status", .str "ERROR"),
        ("reason", .str "Video unavailable")]) "https://www.youtube.com/watch?v=12"
      = .error (.invalidVideoId "https://www.youtube.com/watch?v=12")
  ∧ assertPlayability (.obj [("status", .str "ERROR"),
        ("reason", .str "Private video"),
        ("errorScreen", .obj [("playerErrorMessageRenderer",
          .obj [("subreason", .obj [("runs",
            .arr [.obj [("text", .str "detail")]])])])])]) "vid"
      = .error (.videoUnplayable "vid" (some (.str "Private video")) [.str "detail"]) := by
  refine ⟨?_, ?_, ?_⟩
  · exact (playability_decision_table "vid"
      (.obj [("status", .str "LOGIN_REQUIRED"),
        ("reason", .str ageRestrictedReason)])).2.2.1 rfl rfl
  · exact ((playability_decision_table "https://www.youtube.com/watch?v=12"
      (.obj [("status", .str "ERROR"),
        ("reason", .str "Video unavailable")])).2.2.2.1 rfl rfl).1 (by decide)
  · exact (playability_decision_table "vid"
      (.obj [("status", .str "ERROR"),
        ("reason", .str "Private video"),
        ("errorScreen", .obj [("playerErrorMessageRenderer",
          .obj [("subreason", .obj [("runs",
            .arr [.obj [("text", .str "detail")]])])])])])).2.2.2.2.1
      (.str "ERROR") rfl rfl
      (by intro h; exact absurd h (by simp [Json.isStr]))
      (by intro _; rfl) rfl

/-- The inner dict loop over `[manually_created, generated]` is exactly
manual-first-then-generated lookup. -/
theorem findTranscriptInDicts_pair (m g : List (String × Transcript)) (c : String) :
    findTranscriptInDicts [m, g] c =
      (pyDictGet? m c).orElse fun _ => pyDictGet? g c := by
  cases h : pyDictGet? m c <;> cases h2 : pyDictGet? g c <;>
    simp [findTranscriptInDicts, h, h2, Option.orElse]

/-- The outer loop over the requested codes is the first code whose
manual-then-generated lookup succeeds. -/
theorem findTranscriptLoop_pair (m g : List (String × Transcript))
    (codes : List String) :
    findTranscriptLoop [m, g] codes =
      codes.findSome? fun c => (pyDictGet? m c).orElse fun _ => pyDictGet? g c := by
  induction codes with
  | nil => rfl
  | cons c rest ih =>
    simp only [findTranscriptLoop, List.findSome?_cons, findTranscriptInDicts_pair, ih]
    cases (pyDictGet? m c).orElse fun _ => pyDictGet? g c <;> rfl

/-- **C6**: `find_transcript` iterates the requested codes in order and, per
code, returns the manually created track when present, else the generated one
(`List.findSome?` with manual-before-generated lookup); when no code matches it
raises `NoTranscriptFound` carrying the full requested-code list and the
transcript list (the renderable description of all available tracks); and a
manually created track always outranks a generated one for the same code. -/
theorem find_transcript_spec (tl : TranscriptList) :
    (∀ languageCodes : List String,
      tl.findTranscript languageCodes =
        match languageCodes.findSome? (fun c =>
            (pyDictGet? tl.manuallyCreatedTranscripts c).orElse
              fun _ => pyDictGet? tl.generatedTranscripts c) with
        | some t => .ok t
        | none => .error (.noTranscriptFound tl.videoId languageCodes tl))
  ∧ (∀ (c : String) (t : Transcript),
      pyDictGet? tl.manuallyCreatedTranscripts c = some t →
      ∀ rest, tl.findTranscript (c :: rest) = .ok t) := by
  constructor
  · intro languageCodes
    rw [TranscriptList.findTranscript, TranscriptList.findTranscriptFrom,
      findTranscriptLoop_pair]
  · intro c t h rest
    rw [TranscriptList.findTranscript, TranscriptList.findTranscriptFrom,
      findTranscriptLoop_pair]
    simp [List.findSome?_cons, h, Option.orElse]

/-- Witness for **C6**: in a list holding both a manually created and a
generated English track, `find_transcript(["en"])` returns the manually
created one, by `find_transcript_spec`. -/
theorem find_transcript_spec_witness :
    (TranscriptList.mk "vid"
        [("en", ⟨"vid", "url-manual", "English", "en", false, []⟩)]
        [("en", ⟨"vid", "url-generated", "English", "en", true, []⟩)]
        []).findTranscript ["en"]
      = .ok ⟨"vid", "url-manual", "English", "en", false, []⟩ :=
  (find_transcript_spec (TranscriptList.mk "vid"
      [("en", ⟨"vid", "url-manual", "English", "en", false, []⟩)]
      [("en", ⟨"vid", "url-generated", "English", "en", true, []⟩)]
      [])).2 "en" ⟨"vid", "url-manual", "English", "en", false, []⟩ rfl []

/-- **C7**: on a translatable transcript with an available target code,
`translate` returns a new transcript whose URL is the original's extended with
`&tlang=<code>`, whose language code is the requested code, whose language name
is the target's display name, which is marked generated, and whose
translation-language list is empty — hence not re-translatable.  (The original
is untouched: the embedding is functional and `t` appears unchanged on the
input side.) -/
theorem translate_spec (t : Transcript) (languageCode targetLanguage : String)
    (htrans : t.isTranslatable = true)
    (hcode : pyDictGet? t.translationLanguagesDict languageCode = some targetLanguage) :
    t.translate languageCode = .ok
      { videoId := t.videoId
        url := t.url ++ "&tlang=" ++ languageCode
        language := targetLanguage
        languageCode := languageCode
        isGenerated := true
        translationLanguages := [] }
  ∧ ∀ t' : Transcript, t.translate languageCode = .ok t' → t'.isTranslatable = false := by
  have hmain : t.translate languageCode = .ok
      { videoId := t.videoId
        url := t.url ++ "&tlang=" ++ languageCode
        language := targetLanguage
        languageCode := languageCode
        isGenerated := true
        translationLanguages := [] } := by
    rw [Transcript.translate]
    simp [htrans, hcode]
  refine ⟨hmain, ?_⟩
  intro t' h
  rw [hmain] at h
  cases h
  rfl

/-- Witness for **C7**: translating an English track to `af` via
`translate_spec`; the result carries the target name, `is_generated = true`,
and an empty translation list. -/
theorem translate_spec_witness :
    (Transcript.mk "vid" "http://base" "English" "en" false
        [⟨"Afrikaans", "af"⟩]).translate "af"
      = .ok ⟨"vid", "http://base&tlang=af", "Afrikaans", "af", true, []⟩ :=
  (translate_spec ⟨"vid", "http://base", "English", "en", false,
    [⟨"Afrikaans", "af"⟩]⟩ "af" "Afrikaans" rfl rfl).1

/-- **C8 counterexample**: a decoded player response whose playability is `OK`
and whose `captionTracks` collection is present but *empty* is returned as-is —
`TranscriptsDisabled` is not raised, because the code only checks that the
`captionTracks` key exists, refuting "absent or empty". -/
theorem captions_empty_passes :
    extractCaptionsFromVideoData
      (.obj [("playabilityStatus", .obj [("status", .str "OK")]),
             ("captions", .obj [("playerCaptionsTracklistRenderer",
                .obj [("captionTracks", .arr [])])])]) "vid"
      = .ok (.obj [("captionTracks", .arr [])]) := rfl

/-- **C8 (amended)**: after playability passes, the fetch fails with
`TranscriptsDisabled` when the caption-track collection is *absent* — the
`playerCaptionsTracklistRenderer` is `None` or lacks the `captionTracks` key; a
present-but-empty `captionTracks` list is not rejected (`captions_empty_passes`). -/
theorem captions_absent_disabled (videoData : Json) (videoId : String) (ps : Json)
    (hps : videoData.get? "playabilityStatus" = some ps)
    (hok : assertPlayability ps videoId = .ok ())
    (habsent :
      (videoData.getD "captions" (.obj [])).get? "playerCaptionsTracklistRenderer" = none
      ∨ ∃ cj, (videoData.getD "captions" (.obj [])).get? "playerCaptionsTracklistRenderer"
            = some cj
          ∧ cj.get? "captionTracks" = none) :
    extractCaptionsFromVideoData videoData videoId =
      .error (.transcriptsDisabled videoId) := by
  rw [extractCaptionsFromVideoData, hps]
  rcases habsent with h | ⟨cj, h, hct⟩
  · simp [hok, h] <;> rfl
  · simp [hok, h, hct] <;> rfl

/-- Witness for **C8 (amended)**: `captions` present but without the
`playerCaptionsTracklistRenderer` key, via `captions_absent_disabled`. -/
theorem captions_absent_disabled_witness :
    extractCaptionsFromVideoData
      (.obj [("playabilityStatus", .obj [("status", .str "OK")]),
             ("captions", .obj [])]) "vid"
      = .error (.transcriptsDisabled "vid") :=
  captions_absent_disabled
    (.obj [("playabilityStatus", .obj [("status", .str "OK")]), ("captions", .obj [])])
    "vid" (.obj [("status", .str "OK")]) rfl rfl (Or.inl rfl)

/-- Under a persistently blocked oracle, the instrumented fetch consumes the
attempt indices `tryNumber, tryNumber+1, …` up to the retry budget (always at
least the one attempt of the current call) and returns the annotated error. -/
theorem fetchCaptionsJsonTrace_blocked (proxyConfig : Option ProxyConfig)
    (attempt : Nat → Except YtError Json) (e : YtError)
    (hb : e.isRequestBlocked = true) (hall : ∀ n, attempt n = .error e) :
    ∀ (fuel tryNumber : Nat),
      (proxyRetries proxyConfig - tryNumber).toNat ≤ fuel →
      fetchCaptionsJsonTrace proxyConfig attempt tryNumber =
        (.error (e.withProxyConfig proxyConfig),
          List.range' tryNumber (max (proxyRetries proxyConfig - tryNumber).toNat 1)) := by
  intro fuel
  induction fuel with
  | zero =>
    intro t ht
    have hnot : ¬ ((t : Int) + 1 < proxyRetries proxyConfig) := by omega
    have hmax : max (proxyRetries proxyConfig - (t : Int)).toNat 1 = 1 :=
      Nat.max_eq_right (by omega)
    rw [fetchCaptionsJsonTrace, hall t, hmax]
    simp [hb, hnot]
  | succ fuel ih =>
    intro t ht
    by_cases hlt : (t : Int) + 1 < proxyRetries proxyConfig
    · have hcount : max (proxyRetries proxyConfig - (t : Int)).toNat 1 =
          (max (proxyRetries proxyConfig - ((t + 1 : Nat) : Int)).toNat 1) + 1 := by
        omega
      have hrec := ih (t + 1) (by omega)
      rw [fetchCaptionsJsonTrace, hall t, hcount]
      simp [hb, hlt, hrec, List.range']
    · have hmax : max (proxyRetries proxyConfig - (t : Int)).toNat 1 = 1 :=
        Nat.max_eq_right (by omega)
      rw [fetchCaptionsJsonTrace, hall t, hmax]
      simp [hb, hlt]

/-- The instrumented clone's result component agrees with the plain
`_fetch_captions_json` embedding. -/
theorem fetchCaptionsJsonTrace_fst (proxyConfig : Option ProxyConfig)
    (attempt : Nat → Except YtError Json) :
    ∀ (fuel tryNumber : Nat),
      (proxyRetries proxyConfig - tryNumber).toNat ≤ fuel →
      (fetchCaptionsJsonTrace proxyConfig attempt tryNumber).1 =
        fetchCaptionsJson proxyConfig attempt tryNumber := by
  intro fuel
  induction fuel with
  | zero =>
    intro t ht
    rw [fetchCaptionsJsonTrace, fetchCaptionsJson]
    cases hat : attempt t with
    | ok v => rfl
    | error e =>
      have hnot : ¬ ((t : Int) + 1 < proxyRetries proxyConfig) := by omega
      by_cases hbe : e.isRequestBlocked <;> simp [hbe, hnot]
  | succ fuel ih =>
    intro t ht
    rw [fetchCaptionsJsonTrace, fetchCaptionsJson]
    cases hat : attempt t with
    | ok v => rfl
    | error e =>
      by_cases hbe : e.isRequestBlocked
      · by_cases hlt : (t : Int) + 1 < proxyRetries proxyConfig
        · simp [hbe, hlt, ih (t + 1) (by omega)]
        · simp [hbe, hlt]
      · simp [hbe]

/-- **C3**: with a proxy configured at `retries_when_blocked = N > 0` and a
block persisting across attempts, exactly `N` watch-page rounds occur (attempt
indices `0 … N-1`) before the blocked-request error propagates annotated with
the active proxy configuration; with no proxy configured the block propagates
after the single first attempt; and the instrumented trace agrees with the
plain `_fetch_captions_json` embedding. -/
theorem retry_on_block :
    (∀ (pc : ProxyConfig) (attempt : Nat → Except YtError Json) (e : YtError),
      e.isRequestBlocked = true → (∀ n, attempt n = .error e) →
      0 < pc.retriesWhenBlocked →
      fetchCaptionsJsonTrace (some pc) attempt 0 =
        (.error (e.withProxyConfig (some pc)),
          List.range' 0 pc.retriesWhenBlocked.toNat))
  ∧ (∀ (attempt : Nat → Except YtError Json) (e : YtError),
      e.isRequestBlocked = true → (∀ n, attempt n = .error e) →
      fetchCaptionsJsonTrace none attempt 0 = (.error (e.withProxyConfig none), [0]))
  ∧ (∀ (proxyConfig : Option ProxyConfig) (attempt : Nat → Except YtError Json),
      ∀ tryNumber, (fetchCaptionsJsonTrace proxyConfig attempt tryNumber).1 =
        fetchCaptionsJson proxyConfig attempt tryNumber) := by
  refine ⟨?_, ?_, ?_⟩
  · intro pc attempt e hb hall hN
    have h := fetchCaptionsJsonTrace_blocked (some pc) attempt e hb hall
      (proxyRetries (some pc)).toNat 0 (by omega)
    rw [h]
    have : max (proxyRetries (some pc) - (0 : Nat)).toNat 1 = pc.retriesWhenBlocked.toNat := by
      simp only [proxyRetries]
      omega
    rw [this]
  · intro attempt e hb hall
    have h := fetchCaptionsJsonTrace_blocked none attempt e hb hall 0 0 (by simp [proxyRetries])
    rw [h]
    rfl
  · intro proxyConfig attempt tryNumber
    exact fetchCaptionsJsonTrace_fst proxyConfig attempt
      (proxyRetries proxyConfig - tryNumber).toNat tryNumber le_rfl

/-- Witness for **C3**: a Webshare-style proxy with `retries_when_blocked = 5`
and a block persisting forever yields exactly the five attempts `0 … 4` and the
annotated error, by `retry_on_block`. -/
theorem retry_on_block_witness :
    fetchCaptionsJsonTrace (some ⟨.webshare, 5⟩)
        (fun _ => .error (.requestBlocked "abc" none)) 0 =
      (.error (.requestBlocked "abc" (some ⟨.webshare, 5⟩)), [0, 1, 2, 3, 4]) :=
  (retry_on_block.1 ⟨.webshare, 5⟩ (fun _ => .error (.requestBlocked "abc" none))
    (.requestBlocked "abc" none) rfl (fun _ => rfl) (by decide)).trans rfl

/-- When the character stream holds no `{`, the `while next(...) != "{"` loop
escapes with the bare `StopIteration`. -/
theorem dropUntilAfterBrace_no_brace (l : List Char) (h : '{' ∉ l) :
    dropUntilAfterBrace l = .error .stopIteration := by
  induction l with
  | nil => rfl
  | cons c rest ih =>
    have hc : ¬ (c = '{') := fun hc => h (hc ▸ List.mem_cons_self c rest)
    rw [dropUntilAfterBrace, if_neg hc]
    exact ih fun hm => h (List.mem_cons_of_mem c hm)

/-- **C10**: when the page contains the `var <name>` marker but no `{` occurs in
the scanned segment after it, `_JsVarParser.parse` does not produce the typed
`YouTubeDataUnparsable` failure: the opening-brace scan exhausts the character
iterator and escapes with a bare `StopIteration`, an untyped fault outside the
library's error taxonomy (a distinct outcome of the total embedding). -/
theorem stopiteration_on_missing_brace :
    (∀ (varName rawHtml videoId : String),
      1 < (pySplit ("var " ++ varName).toList rawHtml.toList).length →
      '{' ∉ (pySplit ("var " ++ varName).toList rawHtml.toList)[1]! →
      jsVarParse varName rawHtml videoId = .error .stopIteration)
  ∧ (∀ videoId, (YtError.stopIteration ≠ .youTubeDataUnparsable videoId)) := by
  constructor
  · intro varName rawHtml videoId hlen hnb
    have hnot : ¬ ((pySplit ("var " ++ varName).toList rawHtml.toList).length ≤ 1) := by
      omega
    rw [jsVarParse, createVarCharIterator]
    simp only [if_neg hnot, dropUntilAfterBrace_no_brace _ hnb]
    rfl
  · intro videoId h
    cases h

/-- Witness for **C10**: a page assigning `null` to the variable (no brace at
all after the marker), via `stopiteration_on_missing_brace`. -/
theorem stopiteration_on_missing_brace_witness :
    jsVarParse "ytInitialPlayerResponse" "var ytInitialPlayerResponse = null;" "vid"
      = .error .stopIteration :=
  stopiteration_on_missing_brace.1 "ytInitialPlayerResponse"
    "var ytInitialPlayerResponse = null;" "vid" (by decide) (by decide)

/-- **C9**: on any raw caption payload that is not well-formed XML
(`fromstring` rejects it), `_TranscriptParser.parse` fails with exactly the
propagated data-unparsable condition — it neither completes nor fails with an
unrelated fault. -/
theorem xml_error_propagates :
    (∀ (preserveFormatting : Bool) (rawData message : String),
      fromstring rawData = .error message →
      transcriptParserParse preserveFormatting rawData =
        .error (.xmlParseError message))
  ∧ (∀ (preserveFormatting : Bool) (rawData message : String),
      fromstring rawData = .error message →
      ∀ snippets, transcriptParserParse preserveFormatting rawData ≠ .ok snippets) := by
  constructor
  · intro pf rawData message h
    rw [transcriptParserParse, h]
  · intro pf rawData message h snippets
    rw [transcriptParserParse, h]
    intro hcontr
    cases hcontr

/-- Witness for **C9**: an unterminated document (`<transcript>`), via
`xml_error_propagates`. -/
theorem xml_error_propagates_witness :
    transcriptParserParse false "<transcript>" = .error (.xmlParseError "no element found") :=
  xml_error_propagates.1 false "<transcript>" "no element found" rfl

/-- Pointwise agreement of the embedded comprehension body with the
closed-form snippet extraction, on elements whose float attributes parse. -/
theorem elementSnippet_eq_spec (pf : Bool) (e : XmlElement)
    (h : e.text.isSome = true →
      ((pyDictGet? e.attrib "start").bind pyFloat).isSome = true ∧
      (pyFloat ((pyDictGet? e.attrib "dur").getD "0.0")).isSome = true) :
    elementSnippet pf e = .ok (snippetSpec pf e) := by
  cases htext : e.text with
  | none => simp [elementSnippet, snippetSpec, htext]
  | some t =>
    obtain ⟨hstart, hdur⟩ := h (by simp [htext])
    cases hs : pyDictGet? e.attrib "start" with
    | none => rw [hs] at hstart; simp at hstart
    | some ss =>
      cases hf : pyFloat ss with
      | none => rw [hs] at hstart; simp [hf] at hstart
      | some q =>
        cases hd : pyFloat ((pyDictGet? e.attrib "dur").getD "0.0") with
        | none => simp [hd] at hdur
        | some dq =>
          simp [elementSnippet, snippetSpec, htext, hs, hf, hd]

/-- The comprehension over the children agrees with `filterMap` of the
closed-form extraction. -/
theorem parseElements_eq_spec (pf : Bool) (children : List XmlElement)
    (h : ∀ e ∈ children, e.text.isSome = true →
      ((pyDictGet? e.attrib "start").bind pyFloat).isSome = true ∧
      (pyFloat ((pyDictGet? e.attrib "dur").getD "0.0")).isSome = true) :
    parseElements pf children = .ok (children.filterMap (snippetSpec pf)) := by
  induction children with
  | nil => rfl
  | cons e rest ih =>
    have he := elementSnippet_eq_spec pf e (h e (List.mem_cons_self e rest))
    have hrest := ih fun x hx => h x (List.mem_cons_of_mem e hx)
    rw [parseElements, he, hrest]
    cases hsp : snippetSpec pf e <;> simp [hsp]

/-- **C5**: on a well-formed caption document whose kept elements carry
parseable float attributes, the parser returns exactly the children's snippets
in document order with text-less children skipped (`filterMap` of the
closed-form extraction); a skipped child contributes nothing; `start` is the
float value of the `start` attribute and `duration` the float value of `dur`,
defaulting to `0` when `dur` is absent. -/
theorem parse_snippets_spec (pf : Bool) (rawData : String) (root : XmlRoot)
    (hdoc : fromstring rawData = .ok root)
    (hattrs : ∀ e ∈ root.children, e.text.isSome = true →
      ((pyDictGet? e.attrib "start").bind pyFloat).isSome = true ∧
      (pyFloat ((pyDictGet? e.attrib "dur").getD "0.0")).isSome = true) :
    transcriptParserParse pf rawData = .ok (root.children.filterMap (snippetSpec pf))
  ∧ (∀ e ∈ root.children, e.text = none → snippetSpec pf e = none)
  ∧ (∀ (e : XmlElement) (startStr : String) (q : PyFloat),
      e.attrib = [("start", startStr)] →
      pyFloat startStr = some q → ∀ t, e.text = some t →
      snippetSpec pf e =
        some { text := snippetText pf t, start := q, duration := ⟨0, 1⟩ })
  ∧ PyFloat.toRat ⟨0, 1⟩ = 0 := by
  refine ⟨?_, ?_, ?_, ?_⟩
  · rw [transcriptParserParse, hdoc]
    exact parseElements_eq_spec pf root.children hattrs
  · intro e _ htext
    simp [snippetSpec, htext]
  · intro e startStr q hattr hq t htext
    simp [snippetSpec, htext, hattr, pyDictGet?, hq]
    decide
  · simp [PyFloat.toRat]

/-- Witness for **C5**: a concrete three-element caption document — the middle
element has no text and is skipped, the last has no `dur` and gets duration
`0` — via `parse_snippets_spec`. -/
theorem parse_snippets_spec_witness :
    transcriptParserParse false
        "<transcript><text start=\"1.0\" dur=\"2.5\">hello</text><text start=\"3\"></text><text start=\"4\">bye</text></transcript>"
      = .ok [{ text := "hello", start := ⟨10, 1⟩, duration := ⟨25, 1⟩ },
             { text := "bye", start := ⟨4, 0⟩, duration := ⟨0, 1⟩ }] := by
  rw [(parse_snippets_spec false
    "<transcript><text start=\"1.0\" dur=\"2.5\">hello</text><text start=\"3\"></text><text start=\"4\">bye</text></transcript>"
    { tag := "transcript", attrib := [],
      children := [{ tag := "text", attrib := [("start", "1.0"), ("dur", "2.5")],
                     text := some "hello" },
                   { tag := "text", attrib := [("start", "3")], text := none },
                   { tag := "text", attrib := [("start", "4")], text := some "bye" }] }
    rfl (by decide)).1]
  rfl

/-- **C1 counterexample**: on a page where a *quoted* `{` precedes the JSON
object (`var cfg"{"={"a":1}`), the claim's own quote-aware opening-brace search
(`claimExtract`, worded from the spec) returns `{"a":1}`, but the code
(`jsVarParse`) starts at the quoted `{` and fails with `YouTubeDataUnparsable`
— the code does not look for the first *unescaped, unquoted* `{`, only for the
first `{` character. -/
theorem brace_scan_counterexample :
    claimExtract "cfg" "var cfg\"\x7b\"=\x7b\"a\":1\x7d" "vid" = .ok "\x7b\"a\":1\x7d"
  ∧ jsVarParse "cfg" "var cfg\"\x7b\"=\x7b\"a\":1\x7d" "vid"
      = .error (.youTubeDataUnparsable "vid") :=
  ⟨rfl, rfl⟩

/-- A successful `while next(...) != "{"` loop consumed everything up to and
including the first `{` of the stream. -/
theorem dropUntilAfterBrace_ok (l cs : List Char)
    (h : dropUntilAfterBrace l = .ok cs) :
    ∃ a, l = a ++ '{' :: cs ∧ '{' ∉ a := by
  induction l with
  | nil => cases h
  | cons c rest ih =>
    rw [dropUntilAfterBrace] at h
    by_cases hc : c = '{'
    · rw [if_pos hc] at h
      cases h
      exact ⟨[], by simp [hc]⟩
    · rw [if_neg hc] at h
      obtain ⟨a, ha, hna⟩ := ih h
      exact ⟨c :: a, by simp [ha], by simp [hna, Ne.symm hc]⟩

/-- One step of the scanner loop, with its state transition written as
`braceStep`. -/
theorem findVarSubstringGo_cons (videoId : String) (esc q : Bool) (depth : Nat)
    (chars : List Char) (c : Char) (rest : List Char) :
    findVarSubstringGo videoId esc q depth chars (c :: rest) =
      (if (braceStep (esc, q, depth) c).2.2 = 0 then .ok (String.mk (chars ++ [c]))
       else findVarSubstringGo videoId (braceStep (esc, q, depth) c).1
              (braceStep (esc, q, depth) c).2.1 (braceStep (esc, q, depth) c).2.2
              (chars ++ [c]) rest) := rfl

/-- A successful scan returns the accumulated characters extended by the
shortest non-empty prefix of the remaining stream whose `braceStep` fold
reaches depth `0`. -/
theorem findVarSubstringGo_ok (videoId : String) :
    ∀ (rest : List Char) (esc q : Bool) (depth : Nat) (chars : List Char) (s : String),
      depth ≠ 0 →
      findVarSubstringGo videoId esc q depth chars rest = .ok s →
      ∃ p t, rest = p ++ t ∧ p ≠ [] ∧ s = String.mk (chars ++ p) ∧
        (List.foldl braceStep (esc, q, depth) p).2.2 = 0 ∧
        ∀ q' r, p = q' ++ r → r ≠ [] →
          (List.foldl braceStep (esc, q, depth) q').2.2 ≠ 0 := by
  intro rest
  induction rest with
  | nil => intro esc q depth chars s _ h; cases h
  | cons c rest ih =>
    intro esc q depth chars s hdepth h
    rw [findVarSubstringGo_cons] at h
    by_cases hzero : (braceStep (esc, q, depth) c).2.2 = 0
    · rw [if_pos hzero] at h
      cases h
      refine ⟨[c], rest, rfl, by simp, rfl, by simpa using hzero, ?_⟩
      intro q' r hqr hr
      have hlen : q'.length + r.length = 1 := by
        have := congrArg List.length hqr
        simpa using this.symm
      have hq' : q' = [] := by
        cases q' with
        | nil => rfl
        | cons x xs =>
          cases r with
          | nil => exact absurd rfl hr
          | cons y ys => simp at hlen; omega
      subst hq'
      simpa using hdepth
    · rw [if_neg hzero] at h
      obtain ⟨p', t, hrest, hp', hs, hfold, hmin⟩ :=
        ih (braceStep (esc, q, depth) c).1 (braceStep (esc, q, depth) c).2.1
          (braceStep (esc, q, depth) c).2.2 (chars ++ [c]) s hzero h
      refine ⟨c :: p', t, by simp [hrest], by simp, by simpa using hs, ?_, ?_⟩
      · simpa using hfold
      · intro q' r hqr hr
        rcases q' with _ | ⟨c', q''⟩
        · simpa using hdepth
        · simp at hqr
          obtain ⟨rfl, hq''⟩ := hqr
          simpa using hmin q'' r hq'' hr

/-- **C1 (amended)**: the extractor scans the segment strictly between the
first and second marker occurrences (to the end when the marker occurs once);
the opening brace is the first `{` *character* in that segment regardless of
quoting or escaping; and whenever a substring is returned it is exactly that
`{` followed by the shortest prefix of the remaining characters whose
quote/escape-aware nesting depth (`braceDepth`, where quoted or escaped braces
do not count) returns to `0`, both braces included.  The last conjunct is the
spec's P3 instance, where a `}` inside a quoted string does not end the
object. -/
theorem brace_scan_spec :
    (∀ (varName rawHtml videoId : String) (cs : List Char),
      createVarCharIterator varName rawHtml videoId = .ok cs →
      1 < (pySplit ("var " ++ varName).toList rawHtml.toList).length ∧
      ∃ a, (pySplit ("var " ++ varName).toList rawHtml.toList)[1]! = a ++ '{' :: cs
        ∧ '{' ∉ a)
  ∧ (∀ (videoId : String) (cs : List Char) (s : String),
      findVarSubstring videoId cs = .ok s →
      ∃ p t, cs = p ++ t ∧ s = String.mk ('{' :: p) ∧ braceDepth ('{' :: p) = 0 ∧
        ∀ q r, p = q ++ r → r ≠ [] → braceDepth ('{' :: q) ≠ 0)
  ∧ jsVarParse "cfg" "var cfg = \x7b\"a\": \"\x7d\", \"b\": \x7b\"c\": 1\x7d\x7d;" "vid"
      = .ok "\x7b\"a\": \"\x7d\", \"b\": \x7b\"c\": 1\x7d\x7d" := by
  refine ⟨?_, ?_, rfl⟩
  · intro varName rawHtml videoId cs h
    rw [createVarCharIterator] at h
    by_cases hlen : (pySplit ("var " ++ varName).toList rawHtml.toList).length ≤ 1
    · rw [if_pos hlen] at h
      cases h
    · rw [if_neg hlen] at h
      exact ⟨by omega, dropUntilAfterBrace_ok _ _ h⟩
  · intro videoId cs s h
    obtain ⟨p, t, hrest, _, hs, hfold, hmin⟩ :=
      findVarSubstringGo_ok videoId cs false false 1 ['{'] s (by simp) h
    have hstep : braceStep (false, false, 0) '{' = (false, false, 1) := rfl
    refine ⟨p, t, hrest, by simpa using hs, ?_, ?_⟩
    · simpa [braceDepth, hstep] using hfold
    · intro q r hqr hr
      have := hmin q r hqr hr
      simpa [braceDepth, hstep] using this

/-- Witness for **C1 (amended)**: both general conjuncts of `brace_scan_spec`
instantiated on concrete pages; the returned substring of the concrete scan is
the minimal depth-balanced prefix. -/
theorem brace_scan_spec_witness :
    (1 < (pySplit ("var " ++ "cfg").toList "var cfg = {x}!".toList).length ∧
      ∃ a, (pySplit ("var " ++ "cfg").toList "var cfg = {x}!".toList)[1]!
          = a ++ '{' :: ("x\x7d!".toList) ∧ '{' ∉ a)
  ∧ (∃ p t, ("\"a\": 1\x7d; rest".toList) = p ++ t ∧
      "\x7b\"a\": 1\x7d" = String.mk ('{' :: p) ∧ braceDepth ('{' :: p) = 0 ∧
      ∀ q r, p = q ++ r → r ≠ [] → braceDepth ('{' :: q) ≠ 0) :=
  ⟨brace_scan_spec.1 "cfg" "var cfg = {x}!" "vid" ("x\x7d!".toList) rfl,
   brace_scan_spec.2.1 "vid" ("\"a\": 1\x7d; rest".toList) "\x7b\"a\": 1\x7d" rfl⟩

/-- Characters of the default-mode filter's output all come from its input. -/
theorem stripAllTagsGo_mem : ∀ (fuel : Nat) (l : List Char) (c : Char),
    c ∈ stripAllTagsGo fuel l → c ∈ l := by
  intro fuel
  induction fuel with
  | zero =>
    intro l c h
    cases l with
    | nil => simpa [stripAllTagsGo] using h
    | cons x xs => simpa [stripAllTagsGo] using h
  | succ fuel ih =>
    intro l c h
    cases l with
    | nil => simpa [stripAllTagsGo] using h
    | cons x xs =>
      rw [stripAllTagsGo] at h
      by_cases hx : x = '<'
      · rw [if_pos hx] at h
        by_cases hgt : xs.contains '>'
        · rw [if_pos hgt] at h
          have hmem := ih _ _ h
          have hdrop := List.mem_of_mem_drop hmem
          exact List.mem_cons_of_mem x ((List.dropWhile_sublist _).subset hdrop)
        · rw [if_neg hgt] at h
          rcases List.mem_cons.1 h with rfl | hmem
          · exact List.mem_cons_self _ _
          · exact List.mem_cons_of_mem x (ih _ _ hmem)
      · rw [if_neg hx] at h
        rcases List.mem_cons.1 h with rfl | hmem
        · exact List.mem_cons_self _ _
        · exact List.mem_cons_of_mem x (ih _ _ hmem)

/-- Fuelled core of the C4 default-mode property: the output of
`<[^>]*>`-stripping contains no remaining tag-shaped substring. -/
theorem stripAllTagsGo_no_tag : ∀ (fuel : Nat) (l : List Char), l.length ≤ fuel →
    hasUnstrippedTag (stripAllTagsGo fuel l) = false := by
  intro fuel
  induction fuel with
  | zero =>
    intro l hl
    have hnil : l = [] := List.eq_nil_of_length_eq_zero (Nat.le_zero.1 hl)
    subst hnil
    rfl
  | succ fuel ih =>
    intro l hl
    cases l with
    | nil => rfl
    | cons x xs =>
      have hxs : xs.length ≤ fuel := by simp at hl; omega
      rw [stripAllTagsGo]
      by_cases hx : x = '<'
      · rw [if_pos hx]
        by_cases hgt : xs.contains '>'
        · rw [if_pos hgt]
          refine ih _ ?_
          have h1 : (List.dropWhile (fun x => !decide (x = '>')) xs).length ≤ xs.length :=
            (List.dropWhile_sublist _).length_le
          simp [List.length_drop]
          omega
        · rw [if_neg hgt]
          rw [hasUnstrippedTag, ih xs hxs]
          have hout : ('>' : Char) ∉ stripAllTagsGo fuel xs := fun hmem =>
            absurd (List.elem_iff.2 (stripAllTagsGo_mem fuel xs '>' hmem))
              (by simpa using hgt)
          simp [hout]
      · rw [if_neg hx]
        rw [hasUnstrippedTag, ih xs hxs]
        simp [hx]

/-- An ASCII letter is a word character and none of the regex metacharacters
relevant to the preserve-formatting pattern. -/
theorem alpha_char_facts (c : Char) (h : c.isAlpha = true) :
    isWordChar c = true ∧ c ≠ '>' ∧ c ≠ '\n' ∧ c ≠ '/' ∧ c ≠ '<' := by
  refine ⟨by simp [isWordChar, Char.isAlphanum, h], ?_, ?_, ?_, ?_⟩ <;>
    (intro heq; rw [heq] at h; exact absurd h (by decide))

/-- `tag\b` matches at `name ++ ">..."` exactly when the (case-folded) name is
the tag, for a lowercase tag and a letters-only name. -/
theorem matchTagWord_append (tag : List Char) :
    ∀ (name rest : List Char), (∀ c ∈ tag, c.isLower = true) →
      (∀ c ∈ name, c.isAlpha = true) →
      (matchTagWord tag (name ++ '>' :: rest) = true ↔ name.map Char.toLower = tag) := by
  induction tag with
  | nil =>
    intro name rest _ hname
    cases name with
    | nil =>
      simp only [List.nil_append, List.map_nil, matchTagWord]
      decide
    | cons c ns =>
      have hw : isWordChar c = true := by
        simp [isWordChar, Char.isAlphanum, hname c (List.mem_cons_self c ns)]
      simp [matchTagWord, hw]
  | cons t ts ih =>
    intro name rest htag hname
    have ht : t.isLower = true := htag t (List.mem_cons_self t ts)
    cases name with
    | nil =>
      have hne : ¬ ('>' = t) := fun heq => by
        rw [← heq] at ht
        exact absurd ht (by decide)
      simp [matchTagWord, hne]
    | cons c ns =>
      have hts := fun x hx => htag x (List.mem_cons_of_mem t hx)
      have hns := fun x hx => hname x (List.mem_cons_of_mem c hx)
      have hiff := ih ns rest hts hns
      simp only [List.cons_append, List.append_eq, matchTagWord, List.map_cons,
        Bool.and_eq_true, decide_eq_true_eq, List.cons.injEq, hiff]

/-- The allow-list alternation matches at `name ++ ">..."` exactly when the
case-folded name belongs to the allow-list. -/
theorem lookaheadCore_append (name rest : List Char)
    (hname : ∀ c ∈ name, c.isAlpha = true) :
    (lookaheadCore (name ++ '>' :: rest) = true ↔
      name.map Char.toLower ∈ formattingTags) := by
  have hlow : ∀ tag ∈ formattingTags, ∀ c ∈ tag, c.isLower = true := by decide
  rw [lookaheadCore, List.any_eq_true]
  constructor
  · rintro ⟨tag, htag, hm⟩
    have heq := (matchTagWord_append tag name rest (hlow tag htag) hname).1 hm
    exact heq ▸ htag
  · intro hmem
    exact ⟨name.map Char.toLower, hmem,
      (matchTagWord_append _ name rest (hlow _ hmem) hname).2 rfl⟩

/-- `.*?\b>` consumes a letters-only name followed by `>`, however the scan is
entered. -/
theorem lazyBody_letters :
    ∀ (name rest : List Char) (prev : Char), name ≠ [] →
      (∀ c ∈ name, c.isAlpha = true) →
      lazyBody prev (name ++ '>' :: rest) = some rest := by
  intro name
  induction name with
  | nil => intro rest prev h _; exact absurd rfl h
  | cons c ns ih =>
    intro rest prev _ hname
    have hfacts := alpha_char_facts c (hname c (List.mem_cons_self c ns))
    have hcond : ¬ ((c = '>' && isWordChar prev) = true) := by
      simp [hfacts.2.1]
    cases ns with
    | nil =>
      rw [List.cons_append, List.nil_append, lazyBody, if_neg hcond,
        if_neg (by simp [hfacts.2.2.1]), lazyBody]
      simp [hfacts.1]
    | cons c2 ns2 =>
      rw [List.cons_append, lazyBody, if_neg hcond, if_neg (by simp [hfacts.2.2.1])]
      exact ih rest c (by simp) fun x hx => hname x (List.mem_cons_of_mem c hx)

/-- `\/?` at a non-slash character contributes nothing to the lookahead. -/
theorem lookaheadMatches_not_slash (c : Char) (l : List Char) (h : ¬(c = '/')) :
    lookaheadMatches (c :: l) = lookaheadCore (c :: l) := by
  rw [lookaheadMatches, if_neg h]

/-- At a non-slash character, the preserve-formatting pattern reduces to the
no-slash branch. -/
theorem matchPreserveTag_not_slash (c : Char) (l : List Char) (h : ¬(c = '/')) :
    matchPreserveTag (c :: l) =
      if lookaheadMatches (c :: l) then none else lazyBody '<' (c :: l) := by
  unfold matchPreserveTag
  split
  next l₁ heq =>
    injection heq with h1 _
    exact absurd h1 h
  next => rfl

/-- The slash branch of the preserve-formatting pattern, written out. -/
theorem matchPreserveTag_slash (l₁ : List Char) :
    matchPreserveTag ('/' :: l₁) =
      (match (if lookaheadMatches l₁ then none else lazyBody '/' l₁ :
          Option (List Char)) with
        | some r => some r
        | none =>
          if lookaheadMatches ('/' :: l₁) then none
          else lazyBody '<' ('/' :: l₁)) := rfl

/-- The preserve-formatting pattern at an opening tag `<name>` (already past
the `<`): fails on allow-listed names, else consumes the whole tag. -/
theorem matchPreserveTag_open (name : List Char) (hne : name ≠ [])
    (hname : ∀ c ∈ name, c.isAlpha = true) :
    matchPreserveTag (name ++ ['>']) =
      if name.map Char.toLower ∈ formattingTags then none else some [] := by
  obtain ⟨c, ns, rfl⟩ := List.exists_cons_of_ne_nil hne
  have hfacts := alpha_char_facts c (hname c (List.mem_cons_self c ns))
  have hla := lookaheadCore_append (c :: ns) [] hname
  have hlz := lazyBody_letters (c :: ns) [] '<' (by simp) hname
  simp only [List.cons_append] at hla hlz ⊢
  rw [matchPreserveTag_not_slash c (ns ++ ['>']) hfacts.2.2.2.1,
    lookaheadMatches_not_slash c (ns ++ ['>']) hfacts.2.2.2.1]
  by_cases hmem : (c :: ns).map Char.toLower ∈ formattingTags
  · rw [if_pos hmem, if_pos (hla.2 hmem)]
  · rw [if_neg hmem, if_neg (fun hcon => hmem (hla.1 hcon)), hlz]

/-- The preserve-formatting pattern at a closing tag `</name>` (already past
the `<`): fails on allow-listed names, else consumes the whole tag. -/
theorem matchPreserveTag_close (name : List Char) (hne : name ≠ [])
    (hname : ∀ c ∈ name, c.isAlpha = true) :
    matchPreserveTag ('/' :: name ++ ['>']) =
      if name.map Char.toLower ∈ formattingTags then none else some [] := by
  obtain ⟨c, ns, rfl⟩ := List.exists_cons_of_ne_nil hne
  have hfacts := alpha_char_facts c (hname c (List.mem_cons_self c ns))
  have hla := lookaheadCore_append (c :: ns) [] hname
  have hlz := lazyBody_letters (c :: ns) [] '/' (by simp) hname
  simp only [List.cons_append] at hla hlz ⊢
  rw [matchPreserveTag_slash,
    lookaheadMatches_not_slash c (ns ++ ['>']) hfacts.2.2.2.1]
  by_cases hmem : (c :: ns).map Char.toLower ∈ formattingTags
  · rw [if_pos (hla.2 hmem)]
    show (if lookaheadMatches ('/' :: c :: (ns ++ ['>'])) then none
          else lazyBody '<' ('/' :: c :: (ns ++ ['>']))) = _
    rw [lookaheadMatches, if_pos rfl, hla.2 hmem]
    simp only [Bool.true_or, if_true]
    exact (if_pos (by simpa using hmem)).symm
  · rw [if_neg (fun hcon => hmem (hla.1 hcon)), hlz, if_neg hmem]

/-- The preserve-mode scan of an empty input is empty, whatever the fuel. -/
theorem stripPreserveTagsGo_nil (fuel : Nat) : stripPreserveTagsGo fuel [] = [] := by
  cases fuel <;> rfl

/-- The preserve-mode scan leaves any `<`-free input unchanged. -/
theorem stripPreserveTagsGo_no_lt : ∀ (fuel : Nat) (l : List Char), '<' ∉ l →
    stripPreserveTagsGo fuel l = l := by
  intro fuel
  induction fuel with
  | zero => intro l _; cases l <;> rfl
  | succ fuel ih =>
    intro l h
    cases l with
    | nil => rfl
    | cons x xs =>
      have hx : ¬(x = '<') := fun heq => h (heq ▸ List.mem_cons_self x xs)
      rw [stripPreserveTagsGo, if_neg hx,
        ih xs fun hm => h (List.mem_cons_of_mem x hm)]

/-- **C4**: the emitted text is the raw text HTML-unescaped *first* and
tag-filtered *second* (conjunct 2 fixes the order on the embedding; conjuncts
3–5 exhibit it on `&lt;b&gt;`, whose decode-then-strip result is empty while
strip-then-decode would leave `<b>`, and on the spec's double-escaped P2 input);
in default mode no substring matching `<[^>]*>` survives (conjunct 1); in
preserve-formatting mode an opening or closing tag is kept exactly when its
case-folded name is in the allow-list (conjunct 6, quantified over letters-only
names), so `<b>`/`</b>` survive while the unknown `<x>` is stripped
(conjunct 7). -/
theorem tag_filter_spec :
    (∀ l : List Char, hasUnstrippedTag (stripAllTags l) = false)
  ∧ (∀ raw : String,
      snippetText false raw = String.mk (stripAllTags (unescapeChars raw.toList)) ∧
      snippetText true raw = String.mk (stripPreserveTags (unescapeChars raw.toList)))
  ∧ snippetText false "&lt;b&gt;" = ""
  ∧ String.mk (unescapeChars (stripAllTags ("&lt;b&gt;".toList))) = "<b>"
  ∧ snippetText false "&amp;lt;b&amp;gt;" = "&lt;b&gt;"
  ∧ (∀ name : List Char, name ≠ [] → (∀ c ∈ name, c.isAlpha = true) →
      stripPreserveTags ('<' :: name ++ ['>']) =
        (if name.map Char.toLower ∈ formattingTags then '<' :: name ++ ['>'] else []) ∧
      stripPreserveTags ('<' :: '/' :: name ++ ['>']) =
        (if name.map Char.toLower ∈ formattingTags then '<' :: '/' :: name ++ ['>']
         else []))
  ∧ snippetText true "<b>hi</b><x>y</x>" = "<b>hi</b>y" := by
  refine ⟨?_, fun raw => ⟨rfl, rfl⟩, rfl, rfl, rfl, ?_, rfl⟩
  · intro l
    exact stripAllTagsGo_no_tag l.length l le_rfl
  · intro name hne hname
    have hnoltOpen : '<' ∉ name ++ ['>'] := by
      intro hm
      rcases List.mem_append.1 hm with hm | hm
      · exact (alpha_char_facts _ (hname _ hm)).2.2.2.2 rfl
      · simp at hm
    have hnoltClose : '<' ∉ '/' :: name ++ ['>'] := by
      intro hm
      rcases List.mem_cons.1 hm with hm | hm
      · exact absurd hm (by decide)
      · exact hnoltOpen hm
    constructor
    · rw [stripPreserveTags]
      have hstep :
          stripPreserveTagsGo ('<' :: name ++ ['>']).length ('<' :: name ++ ['>'])
            = (match matchPreserveTag (name ++ ['>']) with
               | some r => stripPreserveTagsGo (name ++ ['>']).length r
               | none =>
                 '<' :: stripPreserveTagsGo (name ++ ['>']).length (name ++ ['>'])) := rfl
      rw [hstep, matchPreserveTag_open name hne hname]
      by_cases hmem : name.map Char.toLower ∈ formattingTags
      · rw [if_pos hmem, if_pos hmem]
        show '<' :: stripPreserveTagsGo (name ++ ['>']).length (name ++ ['>'])
            = '<' :: name ++ ['>']
        rw [stripPreserveTagsGo_no_lt _ _ hnoltOpen]
        exact (List.cons_append _ _ _).symm
      · rw [if_neg hmem, if_neg hmem]
        show stripPreserveTagsGo (name ++ ['>']).length [] = []
        exact stripPreserveTagsGo_nil _
    · rw [stripPreserveTags]
      have hstep :
          stripPreserveTagsGo ('<' :: '/' :: name ++ ['>']).length
              ('<' :: '/' :: name ++ ['>'])
            = (match matchPreserveTag ('/' :: name ++ ['>']) with
               | some r => stripPreserveTagsGo ('/' :: name ++ ['>']).length r
               | none =>
                 '<' :: stripPreserveTagsGo ('/' :: name ++ ['>']).length
                   ('/' :: name ++ ['>'])) := rfl
      rw [hstep, matchPreserveTag_close name hne hname]
      by_cases hmem : name.map Char.toLower ∈ formattingTags
      · rw [if_pos hmem, if_pos hmem]
        show '<' :: stripPreserveTagsGo ('/' :: name ++ ['>']).length ('/' :: name ++ ['>'])
            = '<' :: '/' :: name ++ ['>']
        rw [stripPreserveTagsGo_no_lt _ _ hnoltClose]
        exact (List.cons_append _ _ _).symm
      · rw [if_neg hmem, if_neg hmem]
        show stripPreserveTagsGo ('/' :: name ++ ['>']).length [] = []
        exact stripPreserveTagsGo_nil _

/-- Witness for **C4**: the preserve-mode conjunct instantiated on the unknown
tag `x` (stripped) and the allow-listed tag `b` (kept, opening and closing),
via `tag_filter_spec`. -/
theorem tag_filter_spec_witness :
    stripPreserveTags ('<' :: ['x'] ++ ['>']) = []
  ∧ stripPreserveTags ('<' :: ['b'] ++ ['>']) = '<' :: ['b'] ++ ['>']
  ∧ stripPreserveTags ('<' :: '/' :: ['b'] ++ ['>']) = '<' :: '/' :: ['b'] ++ ['>'] := by
  refine ⟨?_, ?_, ?_⟩
  · exact ((tag_filter_spec.2.2.2.2.2.1 ['x'] (by decide) (by decide)).1).trans
      (if_neg (by decide))
  · exact ((tag_filter_spec.2.2.2.2.2.1 ['b'] (by decide) (by decide)).1).trans
      (if_pos (by decide))
  · exact ((tag_filter_spec.2.2.2.2.2.1 ['b'] (by decide) (by decide)).2).trans
      (if_pos (by decide))

end YTA
